import Mathlib

/-!
Shallow embedding of `brew_builder.py` (class `BrewBuild` and the module-level
`build_from_pickle`).  Python floats are modelled as rationals (`ℚ`) for the
purely rational formulas, and as reals (`ℝ`) where the source uses `np.exp`
or a fractional power (`calc_color`, `est_hop_IBU`, `calc_IBU`).
Python's `round(x, d)` is modelled by rounding `x * 10^d` to the nearest
integer and dividing back.

The SQL dataframe lookups (`df_grain_bill`, `df_hop_bill`, `df_yeast`), which
resolve an ingredient id to its reference row, are modelled as read-only
lookup functions from ids to the fields the calculations read (`yield`,
`color`, `alpha`, `attenuation`), taken as an immutable snapshot inside the
`Brew` state, mirroring how `__init__` materialises the dataframes once.
-/

namespace BrewBuilder

/-- One row of `grain_bill`: `[id, amount (lb), type]` where type `0` is mash
and anything else is extract. -/
structure GrainEntry where
  id : ℤ
  amount : ℚ
  gtype : ℤ
deriving DecidableEq

/-- One row of `hop_bill`: `[id, amount (oz), boil time added (min)]`. -/
structure HopEntry where
  id : ℤ
  amount : ℚ
  time : ℚ
deriving DecidableEq

/-- The reference database: id-keyed lookups giving the columns the
calculations read (`fermentable.yield`, `fermentable.color`, `hop.alpha`,
`yeast.attenuation`). -/
structure Db where
  fermYield : ℤ → ℚ
  fermColor : ℤ → ℚ
  hopAlpha : ℤ → ℚ
  yeastAtten : ℤ → ℚ

/-- The state of a `BrewBuild` object after `__init__`: the raw inputs plus
the resolved reference-data snapshot. -/
structure Brew where
  grain_bill : List GrainEntry
  hop_bill : List HopEntry
  yeast : ℤ
  target_volume : ℚ
  boil_volume : ℚ
  mash_temp : ℚ
  boil_time : ℚ
  mash_efficiency : ℚ
  style : Option ℤ
  mash_volume : ℚ
  fermYield : ℤ → ℚ
  fermColor : ℤ → ℚ
  hopAlpha : ℤ → ℚ
  yeast_atten : ℚ

/-- The constructor arguments of `BrewBuild.__init__` (also exactly the
fields `pickle_build` stores). -/
structure BuildRec where
  grain_bill : List GrainEntry
  hop_bill : List HopEntry
  yeast : ℤ
  target_volume : ℚ
  boil_volume : ℚ
  mash_temp : ℚ
  boil_time : ℚ
  mash_efficiency : ℚ
  style : Option ℤ
  mash_volume : ℚ

/-- Embedding of `BrewBuild.__init__`: store the inputs and resolve the reference rows
from the database connection. -/
def mkBrew (r : BuildRec) (con : Db) : Brew where
  grain_bill := r.grain_bill
  hop_bill := r.hop_bill
  yeast := r.yeast
  target_volume := r.target_volume
  boil_volume := r.boil_volume
  mash_temp := r.mash_temp
  boil_time := r.boil_time
  mash_efficiency := r.mash_efficiency
  style := r.style
  mash_volume := r.mash_volume
  fermYield := con.fermYield
  fermColor := con.fermColor
  hopAlpha := con.hopAlpha
  yeast_atten := con.yeastAtten r.yeast

/-- Python's `round(x, d)`, on rationals: round `x * 10^d` to the nearest
integer, divide back. -/
def roundTo (d : ℕ) (x : ℚ) : ℚ :=
  ((round (x * 10 ^ d) : ℤ) : ℚ) / 10 ^ d

/-- Python's `round(x, d)` on reals (for the `ℝ`-valued calculations). -/
noncomputable def roundToR (d : ℕ) (x : ℝ) : ℝ :=
  ((round (x * 10 ^ d) : ℤ) : ℝ) / 10 ^ d

/-- Embedding of `BrewBuild.calc_GU`: gravity units for one grain.  `yeast_atten = none`
models the Python default `yeast_atten=None`; when it is supplied the
contribution is further scaled for final-gravity computation. -/
def calc_GU (grain_amounts grain_yield mash_efficiency : ℚ) (grain_type : ℤ)
    (yeast_atten : Option ℚ) (yeast_atten_adj : ℚ) : ℚ :=
  match yeast_atten with
  | none =>
    if grain_type = 0 then
      grain_amounts * (grain_yield / 100) * 46 * (mash_efficiency / 100)
    else
      grain_amounts * (grain_yield / 100) * 46
  | some ya =>
    if grain_type = 0 then
      grain_amounts * (grain_yield / 100) * 46 * (mash_efficiency / 100) * (yeast_atten_adj / 100)
    else
      grain_amounts * (grain_yield / 100) * 46 * (ya / 100)

/-- Embedding of `BrewBuild.calc_OG` (default-argument path: all values from `self`). -/
def calc_OG (b : Brew) : ℚ :=
  let OG_GU := (b.grain_bill.map (fun g =>
    calc_GU g.amount (b.fermYield g.id) b.mash_efficiency g.gtype none 0)).sum
  roundTo 3 (OG_GU / b.target_volume / 1000 + 1)

/-- Embedding of `BrewBuild.calc_AA`: adjusted apparent attenuation from the mash
temperature. -/
def calc_AA (yeast_atten mash_temp : ℚ) : ℚ :=
  yeast_atten - (mash_temp - 153.5) * 1.25

/-- Embedding of `BrewBuild.calc_FG` with an explicit `OG`; all other values from `self`
(the `OG=None` path first sets `OG = self.calc_OG()` and then proceeds
identically). -/
def calc_FG (b : Brew) (OG : ℚ) : ℚ :=
  let OG_GU := (OG - 1) * 1000
  let yeast_atten_adj := calc_AA b.yeast_atten b.mash_temp
  let GU := (b.grain_bill.map (fun g =>
    calc_GU g.amount (b.fermYield g.id) b.mash_efficiency g.gtype
      (some b.yeast_atten) yeast_atten_adj)).sum / b.target_volume
  roundTo 3 ((OG_GU - GU) / 1000 + 1)

/-- Embedding of `BrewBuild.calc_ABV`: the (uncommented) low-ABV formula. -/
def calc_ABV (OG FG : ℚ) : ℚ :=
  roundTo 2 ((OG - FG) * 131.25)

/-- Embedding of `BrewBuild.calc_BG` (default-argument path). -/
def calc_BG (b : Brew) : ℚ :=
  let BG_GU := (b.grain_bill.map (fun g =>
    calc_GU g.amount (b.fermYield g.id) b.mash_efficiency g.gtype none 0)).sum
  roundTo 3 (BG_GU / b.boil_volume / 1000 + 1)

/-- One step of the `calc_mash_grav` loop: accumulate gravity units and
grain weight, for mash-type (`0`) entries only. -/
def mashStep (b : Brew) (p : ℚ × ℚ) (g : GrainEntry) : ℚ × ℚ :=
  if g.gtype = 0 then
    (p.1 + calc_GU g.amount (b.fermYield g.id) b.mash_efficiency g.gtype none 0,
     p.2 + g.amount)
  else p

/-- Embedding of `BrewBuild.calc_mash_grav` (default-argument path): mash-type entries
contribute gravity units and absorption weight; the divisor is the mash
volume minus 0.125 gal/lb of grain. -/
def calc_mash_grav (b : Brew) : ℚ :=
  let acc := b.grain_bill.foldl (mashStep b) (0, 0)
  roundTo 3 (acc.1 / (b.mash_volume - 0.125 * acc.2) / 1000 + 1)

/-- Embedding of `BrewBuild.calc_color` (default-argument path): MCU summed per grain,
then `SRM = 1.4922 * MCU ** 0.6859`, rounded to one decimal. -/
noncomputable def calc_color (b : Brew) : ℝ :=
  let MCU : ℚ := (b.grain_bill.map (fun g =>
    g.amount * b.fermColor g.id / b.target_volume)).sum
  roundToR 1 (1.4922 * (MCU : ℝ) ^ (0.6859 : ℝ))

/-- Embedding of `BrewBuild.est_hop_IBU`: IBU contribution of one hop addition. -/
noncomputable def est_hop_IBU (BG hop_times hop_amounts alpha target_volume : ℝ) : ℝ :=
  let fG := 1.65 * (0.000125 : ℝ) ^ (BG - 1)
  let fT := (1 - Real.exp (-0.04 * hop_times)) / 4.15
  let U := fG * fT
  let C_grav := 1 + (BG - 1.050) / 0.2
  hop_amounts * (alpha / 100) * U * 7489 / (target_volume * C_grav)

/-- Embedding of `BrewBuild.calc_IBU` (default-argument path): boil gravity first, then
sum the per-hop contributions, rounded to one decimal. -/
noncomputable def calc_IBU (b : Brew) : ℝ :=
  let BG := calc_BG b
  roundToR 1 ((b.hop_bill.map (fun h =>
    est_hop_IBU (BG : ℝ) (h.time : ℝ) (h.amount : ℝ)
      (b.hopAlpha h.id : ℝ) (b.target_volume : ℝ))).sum)

/-- Embedding of `BrewBuild.pickle_build`: the dictionary of constructor inputs that is
written to the pickle file. -/
def pickle_build (b : Brew) : BuildRec where
  grain_bill := b.grain_bill
  hop_bill := b.hop_bill
  yeast := b.yeast
  target_volume := b.target_volume
  boil_volume := b.boil_volume
  mash_temp := b.mash_temp
  boil_time := b.boil_time
  mash_efficiency := b.mash_efficiency
  style := b.style
  mash_volume := b.mash_volume

/-- Module-level `build_from_pickle`: reconstruct a `BrewBuild` from the
stored inputs and a database connection. -/
def build_from_pickle (r : BuildRec) (con : Db) : Brew :=
  mkBrew r con


/-! ### Helper lemmas about rounding -/

/-- Evaluation rule for `roundTo` from explicit integer bounds. -/
lemma roundTo_eq_of_bounds (d : ℕ) (x y : ℚ) (n : ℤ)
    (h1 : (n : ℚ) ≤ x * 10 ^ d + 1 / 2) (h2 : x * 10 ^ d + 1 / 2 < n + 1)
    (h3 : (n : ℚ) / 10 ^ d = y) : roundTo d x = y := by
  have hr : round (x * 10 ^ d) = n := by
    rw [round_eq]
    exact Int.floor_eq_iff.mpr ⟨h1, h2⟩
  rw [roundTo, hr, h3]

/-- Rounding to `d` decimals is monotone. -/
lemma roundTo_mono (d : ℕ) {x y : ℚ} (h : x ≤ y) : roundTo d x ≤ roundTo d y := by
  have hp : (0 : ℚ) < 10 ^ d := by positivity
  have hxy : x * 10 ^ d ≤ y * 10 ^ d := mul_le_mul_of_nonneg_right h hp.le
  have hm : round (x * 10 ^ d) ≤ round (y * 10 ^ d) := by
    rw [round_eq, round_eq]
    exact Int.floor_mono (by linarith)
  unfold roundTo
  exact div_le_div_of_nonneg_right (by exact_mod_cast hm) hp.le

/-- Rounding to `d` decimals is idempotent. -/
lemma roundTo_roundTo (d : ℕ) (x : ℚ) : roundTo d (roundTo d x) = roundTo d x := by
  unfold roundTo
  have hp : (10 : ℚ) ^ d ≠ 0 := by positivity
  rw [div_mul_cancel₀ _ hp, round_intCast]

/-! ### Spec-side formulations (written from the specification text) -/

/-- Spec formulation of the OG computation: sum the per-fermentable
gravity-unit contributions (mash role scaled by efficiency, extract role
not), divide by the target volume, convert via `1 + GU/1000`, round to
3 decimals. -/
def OGspec (b : Brew) : ℚ :=
  roundTo 3 (1 + ((b.grain_bill.map (fun g =>
    if g.gtype = 0 then
      g.amount * (b.fermYield g.id / 100) * 46 * (b.mash_efficiency / 100)
    else
      g.amount * (b.fermYield g.id / 100) * 46)).sum / b.target_volume) / 1000)

/-- Spec formulation of the FG computation: original-gravity units minus the
fermented gravity units (adjusted attenuation combined with efficiency for
mash role, base attenuation for extract role), converted and rounded. -/
def FGspec (b : Brew) (OG : ℚ) : ℚ :=
  roundTo 3 (1 + ((OG - 1) * 1000 - (b.grain_bill.map (fun g =>
    if g.gtype = 0 then
      g.amount * (b.fermYield g.id / 100) * 46 * (b.mash_efficiency / 100) *
        (calc_AA b.yeast_atten b.mash_temp / 100)
    else
      g.amount * (b.fermYield g.id / 100) * 46 * (b.yeast_atten / 100))).sum /
        b.target_volume) / 1000)

/-- Spec formulation of the mash-gravity computation: gravity units of the
mash-role fermentables only, divided by the mash volume minus a
0.125 gal/lb absorption loss over the mash-role weight. -/
def MGspec (b : Brew) : ℚ :=
  roundTo 3 (1 + (((b.grain_bill.filter (fun g => g.gtype = 0)).map (fun g =>
    g.amount * (b.fermYield g.id / 100) * 46 * (b.mash_efficiency / 100))).sum /
      (b.mash_volume -
        0.125 * ((b.grain_bill.filter (fun g => g.gtype = 0)).map
          (fun g => g.amount)).sum)) / 1000)

/-- Spec formulation of the IBU computation: per hop entry, utilization
`U = fG * fT`, gravity correction `C = 1 + (BG - 1.050)/0.2`, contribution
`weight * alpha/100 * U * 7489 / (target_volume * C)`, summed and rounded
to one decimal, with `BG` the computed boil gravity. -/
noncomputable def IBUspec (b : Brew) : ℝ :=
  let BG : ℝ := ((calc_BG b : ℚ) : ℝ)
  roundToR 1 ((b.hop_bill.map (fun h =>
    ((h.amount : ℝ) * ((b.hopAlpha h.id : ℝ) / 100) *
        (1.65 * (0.000125 : ℝ) ^ (BG - 1) *
          ((1 - Real.exp (-0.04 * (h.time : ℝ))) / 4.15)) * 7489) /
      ((b.target_volume : ℝ) * (1 + (BG - 1.050) / 0.2)))).sum)

/-- Total weight of the mash-role fermentables (the absorption weight that
`calc_mash_grav` accumulates). -/
def mashWeight (b : Brew) : ℚ :=
  ((b.grain_bill.filter (fun g => g.gtype = 0)).map (fun g => g.amount)).sum

/-- Total gravity units of the mash-role fermentables. -/
def mashGU (b : Brew) : ℚ :=
  ((b.grain_bill.filter (fun g => g.gtype = 0)).map (fun g =>
    calc_GU g.amount (b.fermYield g.id) b.mash_efficiency g.gtype none 0)).sum

/-- Unfolding of the `calc_mash_grav` accumulation loop: it computes exactly
the mash-role gravity-unit total and the mash-role weight total. -/
lemma mashStep_foldl (b : Brew) (l : List GrainEntry) (a w : ℚ) :
    l.foldl (mashStep b) (a, w) =
      (a + ((l.filter (fun g => g.gtype = 0)).map (fun g =>
        calc_GU g.amount (b.fermYield g.id) b.mash_efficiency g.gtype none 0)).sum,
       w + ((l.filter (fun g => g.gtype = 0)).map (fun g => g.amount)).sum) := by
  induction l generalizing a w with
  | nil => simp
  | cons g t ih =>
    by_cases h : g.gtype = 0
    · simp only [List.foldl_cons, mashStep, if_pos h, List.filter_cons,
        decide_eq_true_eq, h, if_true, List.map_cons, List.sum_cons, ih]
      simp only [Prod.mk.injEq]
      constructor <;> ring
    · simp only [List.foldl_cons, mashStep, if_neg h, List.filter_cons,
        decide_eq_true_eq, h, if_false, ih]

/-! ### Concrete recipes used in the theorems below -/

/-- The spec's concrete OG scenario: a single mash fermentable, weight 10 lb,
yield 75, efficiency 70 percent, target volume 5 gal. -/
def exBrewC1 : Brew where
  grain_bill := [⟨1, 10, 0⟩]
  hop_bill := []
  yeast := 1
  target_volume := 5
  boil_volume := 5
  mash_temp := 150
  boil_time := 60
  mash_efficiency := 70
  style := none
  mash_volume := 1
  fermYield := fun _ => 75
  fermColor := fun _ => 0
  hopAlpha := fun _ => 0
  yeast_atten := 70

/-! ### Claims -/

/-- C1: for every grain bill, `calc_OG` returns
`round(1 + (sum of per-fermentable gravity-unit contributions / target_volume) / 1000, 3)`,
where a mash-role (type 0) fermentable contributes
`weight * (yield/100) * 46 * (efficiency/100)` and an extract-role
fermentable contributes `weight * (yield/100) * 46`; in particular, for a
single mash fermentable with weight 10 lb, yield 75, target volume 5 gal,
efficiency 70, `calc_OG` returns 1.048. -/
theorem calc_OG_spec : (∀ b : Brew, calc_OG b = OGspec b) ∧ calc_OG exBrewC1 = 1.048 := by
  constructor
  · intro b
    simp only [calc_OG, OGspec, calc_GU]
    congr 1
    ring
  · simp only [calc_OG, exBrewC1]
    norm_num [calc_GU]
    exact roundTo_eq_of_bounds 3 _ _ 1048 (by norm_num) (by norm_num) (by norm_num)

/-- C2: for every recipe, `calc_FG` returns
`round(1 + (OG_GU - fermented_GU) / 1000, 3)` where the fermented
gravity-unit total scales mash-role contributions by the adjusted
attenuation (combined with efficiency) and extract-role contributions by
the base attenuation, and `calc_AA` is the pure function
`base - (mash_temp - 153.5) * 1.25`. -/
theorem calc_FG_spec :
    (∀ (b : Brew) (OG : ℚ), calc_FG b OG = FGspec b OG) ∧
    ∀ ya mt : ℚ, calc_AA ya mt = ya - (mt - 153.5) * 1.25 := by
  constructor
  · intro b OG
    simp only [calc_FG, FGspec, calc_GU]
    congr 1
    ring
  · intro ya mt
    rfl

/-- C5: `calc_ABV` is exactly the simple low-ABV formula
`round((OG - FG) * 131.25, 2)`. -/
theorem calc_ABV_spec : ∀ OG FG : ℚ, calc_ABV OG FG = roundTo 2 ((OG - FG) * 131.25) :=
  fun _ _ => rfl

/-- C6: `calc_mash_grav` sums gravity units over mash-role fermentables
only, divides by `mash_volume - 0.125 * (total mash-role weight)`, converts
via `1 + GU/1000` and rounds to 3 decimals; extract-role entries contribute
neither gravity units nor absorption weight. -/
theorem calc_mash_grav_spec : ∀ b : Brew, calc_mash_grav b = MGspec b := by
  intro b
  simp only [calc_mash_grav, MGspec, mashStep_foldl, zero_add]
  have hmap : List.map
      (fun g => calc_GU g.amount (b.fermYield g.id) b.mash_efficiency g.gtype none 0)
      (b.grain_bill.filter (fun g => g.gtype = 0)) =
      List.map (fun g => g.amount * (b.fermYield g.id / 100) * 46 * (b.mash_efficiency / 100))
        (b.grain_bill.filter (fun g => g.gtype = 0)) := by
    apply List.map_congr_left
    intro g hg
    have h0 : g.gtype = 0 := by simpa using (List.mem_filter.1 hg).2
    simp [calc_GU, h0]
  rw [hmap]
  congr 1
  ring

/-- C9: the pickled inputs reconstruct a `BrewBuild` whose recomputed OG,
FG, IBU, color and ABV agree exactly with the original one built from the
same inputs and database. -/
theorem pickle_roundtrip (r : BuildRec) (con : Db) :
    calc_OG (build_from_pickle (pickle_build (mkBrew r con)) con) = calc_OG (mkBrew r con) ∧
    calc_FG (build_from_pickle (pickle_build (mkBrew r con)) con)
        (calc_OG (build_from_pickle (pickle_build (mkBrew r con)) con)) =
      calc_FG (mkBrew r con) (calc_OG (mkBrew r con)) ∧
    calc_IBU (build_from_pickle (pickle_build (mkBrew r con)) con) = calc_IBU (mkBrew r con) ∧
    calc_color (build_from_pickle (pickle_build (mkBrew r con)) con) = calc_color (mkBrew r con) ∧
    calc_ABV (calc_OG (build_from_pickle (pickle_build (mkBrew r con)) con))
        (calc_FG (build_from_pickle (pickle_build (mkBrew r con)) con)
          (calc_OG (build_from_pickle (pickle_build (mkBrew r con)) con))) =
      calc_ABV (calc_OG (mkBrew r con)) (calc_FG (mkBrew r con) (calc_OG (mkBrew r con))) :=
  ⟨rfl, rfl, rfl, rfl, rfl⟩

/-- C10: the division in `calc_mash_grav` is by the unguarded quantity
`mash_volume - 0.125 * (total mash-role weight)`; that divisor is zero
exactly when the mash-role weight equals `8 * mash_volume`, and whenever
`mash_volume > 0.125 * (total mash-role weight)` it is positive. -/
theorem mash_grav_divisor (b : Brew) :
    calc_mash_grav b =
      roundTo 3 (mashGU b / (b.mash_volume - 0.125 * mashWeight b) / 1000 + 1) ∧
    (b.mash_volume - 0.125 * mashWeight b = 0 ↔ mashWeight b = 8 * b.mash_volume) ∧
    (0.125 * mashWeight b < b.mash_volume → 0 < b.mash_volume - 0.125 * mashWeight b) := by
  refine ⟨?_, ⟨fun h => by unfold mashWeight at *; linarith,
                fun h => by unfold mashWeight at *; linarith⟩,
          fun h => by linarith⟩
  simp only [calc_mash_grav, mashStep_foldl, zero_add, mashGU, mashWeight]

/-- Recipe witnessing that the mash-gravity divisor is positive when the
mash water volume exceeds the absorption loss. -/
def witBrewC10 : Brew where
  grain_bill := [⟨1, 8, 0⟩]
  hop_bill := []
  yeast := 1
  target_volume := 5
  boil_volume := 5
  mash_temp := 150
  boil_time := 60
  mash_efficiency := 70
  style := none
  mash_volume := 2
  fermYield := fun _ => 75
  fermColor := fun _ => 0
  hopAlpha := fun _ => 0
  yeast_atten := 70

/-- Witness for C10 at a concrete recipe: 8 lb of mash grain and 2 gal of
mash water satisfy the precondition, and the divisor is positive. -/
theorem mash_grav_divisor_witness :
    0.125 * mashWeight witBrewC10 < witBrewC10.mash_volume ∧
    0 < witBrewC10.mash_volume - 0.125 * mashWeight witBrewC10 :=
  ⟨by norm_num [mashWeight, witBrewC10], (mash_grav_divisor witBrewC10).2.2
    (by norm_num [mashWeight, witBrewC10])⟩

/-- Recipe refuting the unrestricted FG-does-not-exceed-OG claim: base
attenuation 0 (non-negative) with a 160 F mash makes the adjusted
attenuation negative, so fermentation adds gravity points. -/
def cexBrewC3 : Brew where
  grain_bill := [⟨1, 10, 0⟩]
  hop_bill := []
  yeast := 1
  target_volume := 5
  boil_volume := 5
  mash_temp := 160
  boil_time := 60
  mash_efficiency := 70
  style := none
  mash_volume := 1
  fermYield := fun _ => 75
  fermColor := fun _ => 0
  hopAlpha := fun _ => 0
  yeast_atten := 0

/-- C3 (counterexample): a recipe with non-negative base yeast attenuation
(here 0) on which `calc_FG (calc_OG x) x` strictly exceeds `calc_OG x`. -/
theorem calc_FG_gt_calc_OG_cex :
    0 ≤ cexBrewC3.yeast_atten ∧
    calc_OG cexBrewC3 < calc_FG cexBrewC3 (calc_OG cexBrewC3) := by
  have hOG : calc_OG cexBrewC3 = 1.048 := by
    simp only [calc_OG, cexBrewC3]
    norm_num [calc_GU]
    exact roundTo_eq_of_bounds 3 _ _ 1048 (by norm_num) (by norm_num) (by norm_num)
  have hFG : calc_FG cexBrewC3 1.048 = 1.052 := by
    simp only [calc_FG, cexBrewC3]
    norm_num [calc_GU, calc_AA]
    exact roundTo_eq_of_bounds 3 _ _ 1052 (by norm_num) (by norm_num) (by norm_num)
  rw [hOG, hFG]
  exact ⟨by norm_num [cexBrewC3], by norm_num⟩

/-- C3 (amended): with non-negative grain weights and yields, non-negative
efficiency, non-negative base and adjusted attenuation, and positive target
volume, the computed final gravity never exceeds the computed original
gravity. -/
theorem calc_FG_le_calc_OG (b : Brew)
    (hg : ∀ g ∈ b.grain_bill, 0 ≤ g.amount ∧ 0 ≤ b.fermYield g.id)
    (he : 0 ≤ b.mash_efficiency) (ha : 0 ≤ b.yeast_atten)
    (hadj : 0 ≤ calc_AA b.yeast_atten b.mash_temp)
    (htv : 0 < b.target_volume) :
    calc_FG b (calc_OG b) ≤ calc_OG b := by
  have hS : 0 ≤ (b.grain_bill.map (fun g =>
      calc_GU g.amount (b.fermYield g.id) b.mash_efficiency g.gtype
        (some b.yeast_atten) (calc_AA b.yeast_atten b.mash_temp))).sum := by
    apply List.sum_nonneg
    intro x hx
    obtain ⟨g, hgm, rfl⟩ := List.mem_map.1 hx
    obtain ⟨hga, hgy⟩ := hg g hgm
    simp only [calc_GU]
    by_cases h0 : g.gtype = 0
    · rw [if_pos h0]
      exact mul_nonneg (mul_nonneg (mul_nonneg (mul_nonneg hga
        (div_nonneg hgy (by norm_num))) (by norm_num))
        (div_nonneg he (by norm_num))) (div_nonneg hadj (by norm_num))
    · rw [if_neg h0]
      exact mul_nonneg (mul_nonneg (mul_nonneg hga
        (div_nonneg hgy (by norm_num))) (by norm_num))
        (div_nonneg ha (by norm_num))
  have hT : 0 ≤ (b.grain_bill.map (fun g =>
      calc_GU g.amount (b.fermYield g.id) b.mash_efficiency g.gtype
        (some b.yeast_atten) (calc_AA b.yeast_atten b.mash_temp))).sum /
        b.target_volume := div_nonneg hS htv.le
  have hfix : roundTo 3 (calc_OG b) = calc_OG b := by
    simp only [calc_OG]
    exact roundTo_roundTo 3 _
  have step : calc_FG b (calc_OG b) ≤ roundTo 3 (calc_OG b) := by
    simp only [calc_FG]
    apply roundTo_mono
    linarith
  exact step.trans (le_of_eq hfix)

/-- Witness for the amended C3 at the spec's concrete recipe. -/
theorem calc_FG_le_calc_OG_witness :
    0 < exBrewC1.target_volume ∧ calc_FG exBrewC1 (calc_OG exBrewC1) ≤ calc_OG exBrewC1 :=
  ⟨by norm_num [exBrewC1],
   calc_FG_le_calc_OG exBrewC1
    (by
      intro g hgm
      simp only [exBrewC1, List.mem_singleton] at hgm
      subst hgm
      norm_num [exBrewC1])
    (by norm_num [exBrewC1]) (by norm_num [exBrewC1])
    (by norm_num [exBrewC1, calc_AA]) (by norm_num [exBrewC1])⟩

/-- Recipe with a negative target and boil volume: the code divides by it
without any validation. -/
def negBrewC7 : Brew where
  grain_bill := [⟨1, 10, 0⟩]
  hop_bill := []
  yeast := 1
  target_volume := -5
  boil_volume := -5
  mash_temp := 150
  boil_time := 60
  mash_efficiency := 70
  style := none
  mash_volume := 1
  fermYield := fun _ => 75
  fermColor := fun _ => 0
  hopAlpha := fun _ => 0
  yeast_atten := 70

/-- C7: with a negative volume the gravity calculators perform no input
validation and silently return a finite, meaningless gravity below 1
(0.952 here) instead of rejecting the input. -/
theorem no_volume_validation :
    calc_OG negBrewC7 = 0.952 ∧ calc_BG negBrewC7 = 0.952 := by
  constructor
  · simp only [calc_OG, negBrewC7]
    norm_num [calc_GU]
    exact roundTo_eq_of_bounds 3 _ _ 952 (by norm_num) (by norm_num) (by norm_num)
  · simp only [calc_BG, negBrewC7]
    norm_num [calc_GU]
    exact roundTo_eq_of_bounds 3 _ _ 952 (by norm_num) (by norm_num) (by norm_num)

/-- C8: an empty hop bill gives IBU 0, and an empty grain bill gives
OG 1.000 and color 0. -/
theorem empty_bill_boundaries (b c : Brew)
    (hb : b.hop_bill = []) (hc : c.grain_bill = []) :
    calc_IBU b = 0 ∧ calc_OG c = 1 ∧ calc_color c = 0 := by
  refine ⟨?_, ?_, ?_⟩
  · simp only [calc_IBU, hb, List.map_nil, List.sum_nil, roundToR]
    norm_num
  · have h1 : roundTo 3 (1 : ℚ) = 1 :=
      roundTo_eq_of_bounds 3 1 1 1000 (by norm_num) (by norm_num) (by norm_num)
    simp only [calc_OG, hc, List.map_nil, List.sum_nil, zero_div, zero_add]
    exact h1
  · simp only [calc_color, hc, List.map_nil, List.sum_nil, Rat.cast_zero]
    rw [Real.zero_rpow (by norm_num)]
    simp only [mul_zero, roundToR]
    norm_num

/-- Recipe with empty grain and hop bills. -/
def emptyBrewC8 : Brew where
  grain_bill := []
  hop_bill := []
  yeast := 1
  target_volume := 5
  boil_volume := 5
  mash_temp := 150
  boil_time := 60
  mash_efficiency := 70
  style := none
  mash_volume := 1
  fermYield := fun _ => 75
  fermColor := fun _ => 0
  hopAlpha := fun _ => 0
  yeast_atten := 70

/-- Witness for C8 at a concrete empty recipe. -/
theorem empty_bill_boundaries_witness :
    (emptyBrewC8.hop_bill = [] ∧ emptyBrewC8.grain_bill = []) ∧
    (calc_IBU emptyBrewC8 = 0 ∧ calc_OG emptyBrewC8 = 1 ∧ calc_color emptyBrewC8 = 0) :=
  ⟨⟨rfl, rfl⟩, empty_bill_boundaries emptyBrewC8 emptyBrewC8 rfl rfl⟩

/-- The spec's concrete IBU scenario: one hop, weight 1 oz, alpha 5,
boil time 60 min, target volume 5 gal, with a grain bill and boil volume
chosen so the computed boil gravity is exactly 1.050. -/
def hopBrewC4 : Brew where
  grain_bill := [⟨1, 10, 0⟩]
  hop_bill := [⟨1, 1, 60⟩]
  yeast := 1
  target_volume := 5
  boil_volume := 4.83
  mash_temp := 150
  boil_time := 60
  mash_efficiency := 70
  style := none
  mash_volume := 1
  fermYield := fun _ => 75
  fermColor := fun _ => 0
  hopAlpha := fun _ => 5
  yeast_atten := 70

/-- C4: for every hop bill, `calc_IBU` sums per-hop contributions
`(weight * (alpha/100) * U * 7489) / (target_volume * C)` with
`U = fG * fT`, `fG = 1.65 * 0.000125 ^ (BG - 1)`,
`fT = (1 - e ^ (-0.04 * boil_time)) / 4.15`,
`C = 1 + (BG - 1.050) / 0.2` and `BG` the computed boil gravity, rounded to
one decimal; in particular it reproduces the exact formula output for the
single-hop scenario weight 1 oz, alpha 5, boil time 60 min, `BG = 1.050`,
target volume 5 gal. -/
theorem calc_IBU_spec :
    (∀ b : Brew, calc_IBU b = IBUspec b) ∧
    calc_IBU hopBrewC4 =
      roundToR 1 ((1 * ((5 : ℝ) / 100) *
          (1.65 * (0.000125 : ℝ) ^ ((1.050 : ℝ) - 1) *
            ((1 - Real.exp (-0.04 * 60)) / 4.15)) * 7489) /
        (5 * (1 + ((1.050 : ℝ) - 1.050) / 0.2))) := by
  constructor
  · intro b
    rfl
  · have hBG : calc_BG hopBrewC4 = 1.05 := by
      simp only [calc_BG, hopBrewC4]
      norm_num [calc_GU]
      exact roundTo_eq_of_bounds 3 _ _ 1050 (by norm_num) (by norm_num) (by norm_num)
    simp only [calc_IBU, hBG]
    simp only [hopBrewC4, est_hop_IBU, List.map_cons, List.map_nil, List.sum_cons,
      List.sum_nil, add_zero]
    norm_num

end BrewBuilder
